import Mathlib

/-!
Verification development for the splitup settlement accounting engine
(`src/server/routes.ts`, `src/server/storage.ts`, schema in `shared/schema`).

Modelling conventions:
* Monetary amounts and percentages are stored as decimal strings in the
  database and parsed with `parseFloat` before any arithmetic; we embed them
  as exact rationals (`ℚ`), the decimal-accurate reading of the code's
  arithmetic formulas.
* Calendar dates are ISO `YYYY-MM-DD` strings compared via `new Date(...)`;
  for valid dates this order is the chronological (= lexicographic) order,
  so dates are embedded as naturals with their usual order.
* The two parties are the strings `"person1"` / `"person2"` in the code,
  embedded as a two-variant sum type.
* Nullable columns / optional fields become `Option`; the JS truthiness
  guards on those fields test exactly presence for the values that occur
  (nonempty decimal strings are truthy, `null` is falsy).
* The in-memory ledger store is a list of `OwedLine` records in insertion
  order (JS `Map` iteration order is insertion order); the auto-generated
  `id` and `createdAt` columns are irrelevant to every claim and omitted.
-/

namespace SplitUp

/-- The two parties of a settlement (`'person1' | 'person2'` in the code). -/
inductive Person where
  | person1
  | person2
deriving DecidableEq, Repr

/-- Calendar dates, embedded as naturals ordered chronologically. -/
abbrev Date := Nat

/-- `split_periods` table row (engine-relevant columns). -/
structure SplitPeriod where
  startDate : Date
  endDate : Option Date
  person1SharePct : ℚ
  person2SharePct : ℚ
deriving DecidableEq, Repr

/-- `expenses` table row (engine-relevant columns). -/
structure Expense where
  id : String
  date : Date
  description : String
  category : String
  totalAmount : ℚ
  paidBy : Person
  manualPerson1SharePct : Option ℚ
  manualPerson2SharePct : Option ℚ
deriving DecidableEq, Repr

/-- `assets` table row (engine-relevant columns). -/
structure Asset where
  id : String
  name : String
  purchaseDate : Date
  purchasePrice : ℚ
  paidBy : Person
  manualOriginalPerson1SharePct : Option ℚ
  manualOriginalPerson2SharePct : Option ℚ
  currentEstimatedValue : Option ℚ
  valuationDate : Option Date
  keptBy : Option Person
deriving DecidableEq, Repr

/-- `owed_lines` table row. `date` is `Option` because the asset branch of
`recalculateLedger` stores `asset.valuationDate!`, whose runtime value is
whatever `valuationDate` holds (the `!` is type-level only). -/
structure OwedLine where
  sourceType : String
  sourceId : String
  date : Option Date
  description : String
  category : Option String
  totalAmount : ℚ
  owedPerson1 : ℚ
  owedPerson2 : ℚ
  paidStatus : Bool
  notes : Option String
deriving DecidableEq, Repr

/-- `settlement_participants` row (engine-relevant columns). -/
structure SettlementParticipant where
  personName : String
  role : String
deriving DecidableEq, Repr

/-- `bankersRound` (routes.ts lines 26-39): scale by 100, look at the
fractional remainder, round down below 0.5, up above 0.5, and to the even
floor/ceiling at exactly 0.5. -/
def bankersRound (value : ℚ) : ℚ :=
  let scaled := value * 100
  let fl : ℤ := ⌊scaled⌋
  let remainder := scaled - (fl : ℚ)
  if remainder < 1/2 then
    (fl : ℚ) / 100
  else if remainder > 1/2 then
    ((⌈scaled⌉ : ℤ) : ℚ) / 100
  else
    (if fl % 2 = 0 then (fl : ℚ) else (fl : ℚ) + 1) / 100

/-- The match test of the loop body of `findSplitPeriod` (routes.ts line 49):
`targetDate >= start && (!end || targetDate <= end)`. -/
def periodMatches (date : Date) (period : SplitPeriod) : Bool :=
  decide (period.startDate ≤ date) &&
    (match period.endDate with
     | none => true
     | some e => decide (date ≤ e))

/-- `findSplitPeriod` (routes.ts lines 42-55): first period in list order
whose date range contains `date`. -/
def findSplitPeriod (date : Date) (periods : List SplitPeriod) :
    Option SplitPeriod :=
  periods.find? (periodMatches date)

/-- Percentage resolution of `calculateExpenseOwed` (routes.ts lines 60-72):
both manual overrides if present, else the matching period's percentages,
else 50/50. -/
def expenseSharePcts (expense : Expense) (periods : List SplitPeriod) :
    ℚ × ℚ :=
  match expense.manualPerson1SharePct, expense.manualPerson2SharePct with
  | some m1, some m2 => (m1, m2)
  | _, _ =>
    match findSplitPeriod expense.date periods with
    | some period => (period.person1SharePct, period.person2SharePct)
    | none => (50, 50)

/-- Result record of `calculateExpenseOwed`. -/
structure OwedPair where
  owedPerson1 : ℚ
  owedPerson2 : ℚ
deriving DecidableEq, Repr

/-- `calculateExpenseOwed` (routes.ts lines 59-86). -/
def calculateExpenseOwed (expense : Expense) (periods : List SplitPeriod) :
    OwedPair :=
  let person1Pct := (expenseSharePcts expense periods).1
  let total := expense.totalAmount
  let person1Share := bankersRound (total * (person1Pct / 100))
  let person2Share := total - person1Share
  match expense.paidBy with
  | Person.person1 => { owedPerson1 := person2Share, owedPerson2 := 0 }
  | Person.person2 => { owedPerson1 := 0, owedPerson2 := person1Share }

/-- Percentage resolution of `calculateAssetBuyback` (routes.ts lines
94-106), keyed on the asset's purchase date and manual-original overrides. -/
def assetOriginalPcts (asset : Asset) (periods : List SplitPeriod) :
    ℚ × ℚ :=
  match asset.manualOriginalPerson1SharePct,
      asset.manualOriginalPerson2SharePct with
  | some m1, some m2 => (m1, m2)
  | _, _ =>
    match findSplitPeriod asset.purchaseDate periods with
    | some period => (period.person1SharePct, period.person2SharePct)
    | none => (50, 50)

/-- Result record of `calculateAssetBuyback` (some case). -/
structure BuybackInfo where
  buyback : ℚ
  owedPerson1 : ℚ
  owedPerson2 : ℚ
deriving DecidableEq, Repr

/-- `calculateAssetBuyback` (routes.ts lines 89-117). -/
def calculateAssetBuyback (asset : Asset) (periods : List SplitPeriod) :
    Option BuybackInfo :=
  match asset.currentEstimatedValue, asset.keptBy with
  | some currentValue, some keptBy =>
    let pcts := assetOriginalPcts asset periods
    let otherPartyPct :=
      match keptBy with
      | Person.person1 => pcts.2
      | Person.person2 => pcts.1
    let buyback := bankersRound (currentValue * (otherPartyPct / 100))
    some { buyback := buyback,
           owedPerson1 := if keptBy = Person.person2 then buyback else 0,
           owedPerson2 := if keptBy = Person.person1 then buyback else 0 }
  | _, _ => none

/-- `MemStorage.deleteOwedLinesBySource` (storage.ts lines 176-184): drop
every stored line whose `(sourceType, sourceId)` matches. -/
def deleteOwedLinesBySource (sourceType sourceId : String)
    (lines : List OwedLine) : List OwedLine :=
  lines.filter fun l =>
    !(l.sourceType == sourceType && l.sourceId == sourceId)

/-- JS template-literal rendering of a possibly-undefined participant name
(`${person?.personName}` prints `undefined` when the lookup fails). -/
def jsName : Option String → String
  | some s => s
  | none => "undefined"

/-- JS `Number.prototype.toFixed(2)`: the integer cent count nearest to the
value, ties toward the larger integer. -/
def toFixedCents (q : ℚ) : ℤ :=
  ⌊q * 100 + 1/2⌋

/-- Decimal rendering of a nonnegative cent count, as `toFixed(2)` prints. -/
def centsToDecimalString (m : ℕ) : String :=
  toString (m / 100) ++ "." ++
    (if m % 100 < 10 then "0" else "") ++ toString (m % 100)

/-- JS `x.toFixed(2)` as a string (sign handled as for JS numbers). -/
def toFixed2 (q : ℚ) : String :=
  let n := toFixedCents q
  if n < 0 then "-" ++ centsToDecimalString n.natAbs
  else centsToDecimalString n.natAbs

/-- The OwedLine inserted for one expense by `recalculateLedger`
(routes.ts lines 133-155), given the two looked-up participants. -/
def expenseOwedLine (periods : List SplitPeriod)
    (person1 person2 : Option SettlementParticipant) (expense : Expense) :
    OwedLine :=
  let owed := calculateExpenseOwed expense periods
  let paidByName :=
    match expense.paidBy with
    | Person.person1 => jsName (person1.map (·.personName))
    | Person.person2 => jsName (person2.map (·.personName))
  { sourceType := "expense"
    sourceId := expense.id
    date := some expense.date
    description := expense.description ++ " (" ++ paidByName ++ " paid)"
    category := some expense.category
    totalAmount := expense.totalAmount
    owedPerson1 := owed.owedPerson1
    owedPerson2 := owed.owedPerson2
    paidStatus := false
    notes := none }

/-- The OwedLines (zero or one) inserted for one asset by
`recalculateLedger` (routes.ts lines 158-181). -/
def assetOwedLines (periods : List SplitPeriod)
    (person1 person2 : Option SettlementParticipant) (asset : Asset) :
    List OwedLine :=
  match calculateAssetBuyback asset periods with
  | some buybackInfo =>
    let keptByName :=
      if asset.keptBy = some Person.person1 then
        jsName (person1.map (·.personName))
      else jsName (person2.map (·.personName))
    [{ sourceType := "asset"
       sourceId := asset.id
       date := asset.valuationDate
       description := asset.name ++ " - Buyback (Kept by " ++ keptByName ++ ")"
       category := none
       -- `asset.currentEstimatedValue!`: in this branch the buyback is
       -- `some`, hence `currentEstimatedValue` is set and `getD 0` is it
       totalAmount := asset.currentEstimatedValue.getD 0
       owedPerson1 := buybackInfo.owedPerson1
       owedPerson2 := buybackInfo.owedPerson2
       paidStatus := false
       notes := some ("Original price: $" ++ toFixed2 asset.purchasePrice) }]
  | none => []

/-- `recalculateLedger` (routes.ts lines 120-182) acting on the stored
OwedLine list: per expense, delete that expense's lines and append a fresh
one; then per asset, delete that asset's lines and append the buyback line
when computable. Expenses/assets/periods and the participant lookups are
the data loaded at the start of the function. -/
def recalculateLedger (expenses : List Expense) (assets : List Asset)
    (periods : List SplitPeriod)
    (participants : List SettlementParticipant)
    (lines0 : List OwedLine) : List OwedLine :=
  let person1 := participants.find? (fun p => p.role == "creator")
  let person2 := participants.find? (fun p => p.role == "participant")
  let afterExpenses :=
    expenses.foldl
      (fun lines expense =>
        deleteOwedLinesBySource "expense" expense.id lines ++
          [expenseOwedLine periods person1 person2 expense])
      lines0
  assets.foldl
    (fun lines asset =>
      deleteOwedLinesBySource "asset" asset.id lines ++
        assetOwedLines periods person1 person2 asset)
    afterExpenses

/-- The grouping loop of the `GET /api/ledger` route (routes.ts lines
640-652): a line goes to the person1 view if `owedPerson1 > 0`, else to the
person2 view if `owedPerson2 > 0`, else to neither. -/
def groupOwedLines : List OwedLine → List OwedLine × List OwedLine
  | [] => ([], [])
  | line :: rest =>
    let grouped := groupOwedLines rest
    if 0 < line.owedPerson1 then (line :: grouped.1, grouped.2)
    else if 0 < line.owedPerson2 then (grouped.1, line :: grouped.2)
    else grouped

/-- Summary record returned by the ledger route. -/
structure LedgerSummary where
  totalPerson1Owed : ℚ
  totalPerson2Owed : ℚ
  netAmount : ℚ
  netDebtor : Option Person
deriving DecidableEq, Repr

/-- The summary computation of the `GET /api/ledger` route (routes.ts lines
654-675): per-side unpaid totals over the grouped views, net difference,
absolute net amount, and the net debtor by sign. -/
def ledgerSummary (lines : List OwedLine) : LedgerSummary :=
  let grouped := groupOwedLines lines
  let totalPerson1Owed :=
    ((grouped.1.filter (fun l => !l.paidStatus)).map (·.owedPerson1)).sum
  let totalPerson2Owed :=
    ((grouped.2.filter (fun l => !l.paidStatus)).map (·.owedPerson2)).sum
  let netAmount := totalPerson1Owed - totalPerson2Owed
  { totalPerson1Owed := totalPerson1Owed
    totalPerson2Owed := totalPerson2Owed
    netAmount := |netAmount|
    netDebtor :=
      if 0 < netAmount then some Person.person2
      else if netAmount < 0 then some Person.person1
      else none }

/-! ## Claim theorems -/

/-- C3: `bankersRound` rounds a currency amount to the nearest whole cent
with round-half-to-even tie-breaking: after scaling by 100, a fractional
remainder below 0.5 rounds down to the floor, above 0.5 rounds up to the
ceiling, and whenever the scaled-cents fractional part is exactly 0.5 the
resulting cent count is an even integer. -/
theorem bankersRound_half_even (value : ℚ) :
    (value * 100 - (⌊value * 100⌋ : ℚ) < 1/2 →
      bankersRound value = ((⌊value * 100⌋ : ℤ) : ℚ) / 100) ∧
    (1/2 < value * 100 - (⌊value * 100⌋ : ℚ) →
      bankersRound value = ((⌈value * 100⌉ : ℤ) : ℚ) / 100) ∧
    (value * 100 - (⌊value * 100⌋ : ℚ) = 1/2 →
      ∃ z : ℤ, Even z ∧ bankersRound value = (z : ℚ) / 100) := by
  refine ⟨?_, ?_, ?_⟩ <;> intro h <;> simp only [bankersRound]
  · rw [if_pos h]
  · rw [if_neg (by linarith), if_pos h]
  · rw [if_neg (by simp [h]), if_neg (by simp [h])]
    rcases Int.emod_two_eq_zero_or_one ⌊value * 100⌋ with hp | hp
    · exact ⟨⌊value * 100⌋, Int.even_iff.mpr hp, by rw [if_pos hp]⟩
    · refine ⟨⌊value * 100⌋ + 1, Int.even_iff.mpr ?_, ?_⟩
      · omega
      · rw [if_neg (by omega)]
        push_cast
        ring

/-- Witness for C3 at concrete inputs: 0.124 has remainder 0.4 and rounds
down to 12 cents, 0.126 has remainder 0.6 and rounds up to 13 cents, and
0.125 sits exactly on the 12.5-cent tie and lands on an even cent count. -/
theorem bankersRound_half_even_witness :
    bankersRound (124/1000) = (12 : ℚ) / 100 ∧
    bankersRound (126/1000) = (13 : ℚ) / 100 ∧
    (∃ z : ℤ, Even z ∧ bankersRound (125/1000) = (z : ℚ) / 100) := by
  refine ⟨?_, ?_, ?_⟩
  · have h := (bankersRound_half_even (124/1000)).1 (by norm_num)
    rw [h]; norm_num
  · have h := (bankersRound_half_even (126/1000)).2.1 (by norm_num)
    rw [h]
    norm_num
    rw [show (⌈(63 : ℚ)/5⌉ : ℤ) = 13 from by
      rw [Int.ceil_eq_iff]; norm_num]
    norm_num
  · exact (bankersRound_half_even (125/1000)).2.2 (by norm_num)

/-- C1: for every expense the two computed shares sum exactly to
`totalAmount`: the person1 share is `bankersRound(totalAmount * person1Pct
/ 100)`, the person2 share is `totalAmount - person1Share` (not
independently rounded), their sum is exactly `totalAmount`, and the owed
pair is built from those shares according to who paid. -/
theorem expense_shares_sum_to_total (expense : Expense)
    (periods : List SplitPeriod) :
    ∃ person1Share person2Share : ℚ,
      person1Share =
        bankersRound (expense.totalAmount *
          ((expenseSharePcts expense periods).1 / 100)) ∧
      person2Share = expense.totalAmount - person1Share ∧
      person1Share + person2Share = expense.totalAmount ∧
      calculateExpenseOwed expense periods =
        (match expense.paidBy with
         | Person.person1 =>
             { owedPerson1 := person2Share, owedPerson2 := 0 }
         | Person.person2 =>
             { owedPerson1 := 0, owedPerson2 := person1Share }) := by
  refine ⟨_, _, rfl, rfl, by ring, ?_⟩
  rfl

/-- A $100 expense with manual 100/0 split, paid by person1 (the
full-share party): the input refuting "exactly one owed side nonzero". -/
def fullShareExpense : Expense :=
  { id := "e1", date := 0, description := "d", category := "Other",
    totalAmount := 100, paidBy := Person.person1,
    manualPerson1SharePct := some 100, manualPerson2SharePct := some 0 }

/-- C2 counterexample: at `fullShareExpense` (total 100 > 0, manual split
100/0, paid by person1) the calculator returns both owed sides zero, so
"exactly one of the two owed sides is nonzero" fails. -/
theorem exactly_one_nonzero_fails :
    0 < fullShareExpense.totalAmount ∧
    calculateExpenseOwed fullShareExpense [] =
      { owedPerson1 := 0, owedPerson2 := 0 } ∧
    ¬ (((calculateExpenseOwed fullShareExpense []).owedPerson1 ≠ 0 ∧
        (calculateExpenseOwed fullShareExpense []).owedPerson2 = 0) ∨
       ((calculateExpenseOwed fullShareExpense []).owedPerson1 = 0 ∧
        (calculateExpenseOwed fullShareExpense []).owedPerson2 ≠ 0)) := by
  have he : calculateExpenseOwed fullShareExpense [] =
      { owedPerson1 := 0, owedPerson2 := 0 } := by
    norm_num [calculateExpenseOwed, fullShareExpense, expenseSharePcts,
      bankersRound]
  refine ⟨by norm_num [fullShareExpense], he, ?_⟩
  rw [he]
  simp

/-- C2 amended: for every expense with positive total, AT MOST one of
`owedPerson1`/`owedPerson2` is nonzero (both can be zero, e.g. for a 100/0
split paid by the full-share party), and a nonzero value sits on the side
of the party who did NOT pay: if person1 paid then `owedPerson1` carries
person2's share and `owedPerson2 = 0`, symmetric otherwise. -/
theorem owed_at_most_one_nonzero (expense : Expense)
    (periods : List SplitPeriod)
    (_hpos : 0 < expense.totalAmount) :
    ((calculateExpenseOwed expense periods).owedPerson1 = 0 ∨
      (calculateExpenseOwed expense periods).owedPerson2 = 0) ∧
    (expense.paidBy = Person.person1 →
      (calculateExpenseOwed expense periods).owedPerson1 =
        expense.totalAmount -
          bankersRound (expense.totalAmount *
            ((expenseSharePcts expense periods).1 / 100)) ∧
      (calculateExpenseOwed expense periods).owedPerson2 = 0) ∧
    (expense.paidBy = Person.person2 →
      (calculateExpenseOwed expense periods).owedPerson1 = 0 ∧
      (calculateExpenseOwed expense periods).owedPerson2 =
        bankersRound (expense.totalAmount *
          ((expenseSharePcts expense periods).1 / 100))) := by
  cases hp : expense.paidBy <;>
    simp [calculateExpenseOwed, hp]

/-- Witness for C2 amended: a $10 expense at 30/70 paid by person2; the
only nonzero owed side is person2's, carrying person1's 30% share. -/
theorem owed_at_most_one_nonzero_witness :
    ((calculateExpenseOwed
        (Expense.mk "w2" 0 "d" "Other" 10 Person.person2
          (some 30) (some 70)) []).owedPerson1 = 0 ∨
      (calculateExpenseOwed
        (Expense.mk "w2" 0 "d" "Other" 10 Person.person2
          (some 30) (some 70)) []).owedPerson2 = 0) ∧
    (calculateExpenseOwed
        (Expense.mk "w2" 0 "d" "Other" 10 Person.person2
          (some 30) (some 70)) []).owedPerson2 =
      bankersRound (10 * ((30 : ℚ) / 100)) := by
  have h := owed_at_most_one_nonzero
    (Expense.mk "w2" 0 "d" "Other" 10 Person.person2 (some 30) (some 70))
    [] (by norm_num)
  exact ⟨h.1, ((h.2.2) rfl).2⟩

/-- C5: `calculateAssetBuyback` returns `none` exactly when the current
estimated value or the keeper is unset; otherwise the buyback is
`bankersRound(currentEstimatedValue * otherPct / 100)` where `otherPct` is
the ORIGINAL percentage (manual-original override if both present, else the
period matching `purchaseDate`, else 50 — this is what `assetOriginalPcts`
computes) of the party who does not keep the asset, and the keeper owes the
other party that buyback. -/
theorem asset_buyback_spec (asset : Asset) (periods : List SplitPeriod) :
    (calculateAssetBuyback asset periods = none ↔
      asset.currentEstimatedValue = none ∨ asset.keptBy = none) ∧
    (∀ v kb, asset.currentEstimatedValue = some v → asset.keptBy = some kb →
      calculateAssetBuyback asset periods =
        some { buyback :=
                 bankersRound (v *
                   ((match kb with
                     | Person.person1 => (assetOriginalPcts asset periods).2
                     | Person.person2 =>
                         (assetOriginalPcts asset periods).1) / 100))
               owedPerson1 :=
                 if kb = Person.person2 then
                   bankersRound (v *
                     (((assetOriginalPcts asset periods).1) / 100))
                 else 0
               owedPerson2 :=
                 if kb = Person.person1 then
                   bankersRound (v *
                     (((assetOriginalPcts asset periods).2) / 100))
                 else 0 }) := by
  constructor
  · cases hv : asset.currentEstimatedValue <;> cases hk : asset.keptBy <;>
      simp [calculateAssetBuyback, hv, hk]
  · intro v kb hv hk
    cases kb <;> simp [calculateAssetBuyback, hv, hk]

/-- Witness for C5, the spec's asset scenario: original split 60/40 via
manual-original overrides, current value 500, kept by person1; the buyback
is person2's 40% of 500 = 200, owed to person2. -/
theorem asset_buyback_spec_witness :
    calculateAssetBuyback
      { id := "a1", name := "car", purchaseDate := 3, purchasePrice := 1000,
        paidBy := Person.person1,
        manualOriginalPerson1SharePct := some 60,
        manualOriginalPerson2SharePct := some 40,
        currentEstimatedValue := some 500, valuationDate := some 9,
        keptBy := some Person.person1 } [] =
      some { buyback := 200, owedPerson1 := 0, owedPerson2 := 200 } := by
  have h := (asset_buyback_spec
    { id := "a1", name := "car", purchaseDate := 3, purchasePrice := 1000,
      paidBy := Person.person1,
      manualOriginalPerson1SharePct := some 60,
      manualOriginalPerson2SharePct := some 40,
      currentEstimatedValue := some 500, valuationDate := some 9,
      keptBy := some Person.person1 } []).2 500 Person.person1 rfl rfl
  rw [h]
  norm_num [assetOriginalPcts, bankersRound]
  decide

/-- C6: when both manual override percentages are present they fully
determine the split percentages used by both calculators, regardless of
the period list (so regardless of whether any period matches the date). -/
theorem manual_override_precedence
    (expense : Expense) (asset : Asset) (em1 em2 am1 am2 : ℚ)
    (periods periods' : List SplitPeriod)
    (he1 : expense.manualPerson1SharePct = some em1)
    (he2 : expense.manualPerson2SharePct = some em2)
    (ha1 : asset.manualOriginalPerson1SharePct = some am1)
    (ha2 : asset.manualOriginalPerson2SharePct = some am2) :
    expenseSharePcts expense periods = (em1, em2) ∧
    assetOriginalPcts asset periods = (am1, am2) ∧
    calculateExpenseOwed expense periods =
      calculateExpenseOwed expense periods' ∧
    calculateAssetBuyback asset periods =
      calculateAssetBuyback asset periods' := by
  have hE : ∀ ps : List SplitPeriod,
      expenseSharePcts expense ps = (em1, em2) := fun ps => by
    simp [expenseSharePcts, he1, he2]
  have hA : ∀ ps : List SplitPeriod,
      assetOriginalPcts asset ps = (am1, am2) := fun ps => by
    simp [assetOriginalPcts, ha1, ha2]
  refine ⟨hE periods, hA periods, ?_, ?_⟩
  · simp only [calculateExpenseOwed, hE]
  · simp only [calculateAssetBuyback, hA]

/-- Witness for C6: a concrete expense and asset carrying manual 70/30 and
20/80 overrides, compared across the empty period list and one whose only
period (matching every date) says 50/50. -/
theorem manual_override_precedence_witness :
    expenseSharePcts
        (Expense.mk "e6" 4 "d" "Other" 10 Person.person1
          (some 70) (some 30))
        [SplitPeriod.mk 0 none 50 50] = (70, 30) ∧
    assetOriginalPcts
        (Asset.mk "a6" "n" 4 10 Person.person1 (some 20) (some 80)
          (some 5) (some 9) (some Person.person2))
        [SplitPeriod.mk 0 none 50 50] = (20, 80) ∧
    calculateExpenseOwed
        (Expense.mk "e6" 4 "d" "Other" 10 Person.person1
          (some 70) (some 30))
        [SplitPeriod.mk 0 none 50 50] =
      calculateExpenseOwed
        (Expense.mk "e6" 4 "d" "Other" 10 Person.person1
          (some 70) (some 30)) [] ∧
    calculateAssetBuyback
        (Asset.mk "a6" "n" 4 10 Person.person1 (some 20) (some 80)
          (some 5) (some 9) (some Person.person2))
        [SplitPeriod.mk 0 none 50 50] =
      calculateAssetBuyback
        (Asset.mk "a6" "n" 4 10 Person.person1 (some 20) (some 80)
          (some 5) (some 9) (some Person.person2)) [] :=
  manual_override_precedence
    (Expense.mk "e6" 4 "d" "Other" 10 Person.person1 (some 70) (some 30))
    (Asset.mk "a6" "n" 4 10 Person.person1 (some 20) (some 80)
      (some 5) (some 9) (some Person.person2))
    70 30 20 80 [SplitPeriod.mk 0 none 50 50] [] rfl rfl rfl rfl

/-- C7: when the manual overrides are not both present, the percentages
used are those of the FIRST period in caller-supplied list order whose
`startDate` is at most the expense date and whose `endDate` is null or at
least the date (that is what `periodMatches` tests); if no period matches,
the split defaults to 50/50 — the calculator is total, it never fails on
this condition. -/
theorem period_resolution_default (expense : Expense)
    (periods : List SplitPeriod)
    (h : expense.manualPerson1SharePct = none ∨
         expense.manualPerson2SharePct = none) :
    (∀ period, findSplitPeriod expense.date periods = some period →
        expenseSharePcts expense periods =
          (period.person1SharePct, period.person2SharePct) ∧
        periodMatches expense.date period = true ∧
        ∃ pre post, periods = pre ++ period :: post ∧
          ∀ q ∈ pre, periodMatches expense.date q = false) ∧
    (findSplitPeriod expense.date periods = none →
        expenseSharePcts expense periods = (50, 50)) := by
  have hpcts : expenseSharePcts expense periods =
      (match findSplitPeriod expense.date periods with
       | some period => (period.person1SharePct, period.person2SharePct)
       | none => (50, 50)) := by
    rcases h with h | h
    · cases hm : expense.manualPerson2SharePct <;>
        simp [expenseSharePcts, h, hm]
    · cases hm : expense.manualPerson1SharePct <;>
        simp [expenseSharePcts, h, hm]
  constructor
  · intro period hfind
    have hchar := List.find?_eq_some.mp
      (by simpa [findSplitPeriod] using hfind)
    refine ⟨by rw [hpcts, hfind], hchar.1, ?_⟩
    obtain ⟨pre, post, hsplit, hpre⟩ := hchar.2
    exact ⟨pre, post, hsplit, fun q hq => by simpa using hpre q hq⟩
  · intro hfind
    rw [hpcts, hfind]

/-- Witness for C7: an expense dated day 10 with no manual overrides; the
first listed period starts on day 20 (no match) and the second spans days
0-15 with a 60/40 split, which is picked; over an empty period list the
split defaults to 50/50. -/
theorem period_resolution_default_witness :
    expenseSharePcts
        (Expense.mk "e7" 10 "d" "Other" 10 Person.person1 none none)
        [SplitPeriod.mk 20 none 30 70, SplitPeriod.mk 0 (some 15) 60 40] =
      (60, 40) ∧
    expenseSharePcts
        (Expense.mk "e7" 10 "d" "Other" 10 Person.person1 none none) [] =
      (50, 50) := by
  constructor
  · exact ((period_resolution_default
      (Expense.mk "e7" 10 "d" "Other" 10 Person.person1 none none)
      [SplitPeriod.mk 20 none 30 70, SplitPeriod.mk 0 (some 15) 60 40]
      (Or.inl rfl)).1 (SplitPeriod.mk 0 (some 15) 60 40) (by decide)).1
  · exact (period_resolution_default
      (Expense.mk "e7" 10 "d" "Other" 10 Person.person1 none none) []
      (Or.inl rfl)).2 rfl

/-- The person1-side view produced by the grouping loop is exactly the
sublist of lines with `owedPerson1 > 0`. -/
theorem groupOwedLines_fst (lines : List OwedLine) :
    (groupOwedLines lines).1 =
      lines.filter fun l => decide (0 < l.owedPerson1) := by
  induction lines with
  | nil => rfl
  | cons line rest ih =>
    by_cases hp1 : 0 < line.owedPerson1
    · simp [groupOwedLines, hp1, List.filter_cons, ih]
    · by_cases hp2 : 0 < line.owedPerson2 <;>
        simp [groupOwedLines, hp1, hp2, List.filter_cons, ih]

/-- The person2-side view produced by the grouping loop is exactly the
sublist of lines with `owedPerson1 ≤ 0` and `owedPerson2 > 0`. -/
theorem groupOwedLines_snd (lines : List OwedLine) :
    (groupOwedLines lines).2 =
      lines.filter fun l =>
        !(decide (0 < l.owedPerson1)) && decide (0 < l.owedPerson2) := by
  induction lines with
  | nil => rfl
  | cons line rest ih =>
    by_cases hp1 : 0 < line.owedPerson1
    · simp [groupOwedLines, hp1, List.filter_cons, ih]
    · by_cases hp2 : 0 < line.owedPerson2 <;>
        simp [groupOwedLines, hp1, hp2, List.filter_cons, ih]

/-- Modelled from the spec's words (§4.5 step 5), for comparison with the
code's `ledgerSummary`: partition all OwedLines by which side is nonzero;
sum unpaid amounts per side; net difference of the two totals, reported as
absolute value; the debtor is person2 on positive net, person1 on negative
net, none on zero. -/
def specLedgerSummary (lines : List OwedLine) : LedgerSummary :=
  let totalOwedToPerson1 :=
    ((lines.filter fun l => decide (l.owedPerson1 ≠ 0) && !l.paidStatus).map
      (·.owedPerson1)).sum
  let totalOwedToPerson2 :=
    ((lines.filter fun l => decide (l.owedPerson2 ≠ 0) && !l.paidStatus).map
      (·.owedPerson2)).sum
  let netAmount := totalOwedToPerson1 - totalOwedToPerson2
  { totalPerson1Owed := totalOwedToPerson1
    totalPerson2Owed := totalOwedToPerson2
    netAmount := |netAmount|
    netDebtor :=
      if 0 < netAmount then some Person.person2
      else if netAmount < 0 then some Person.person1
      else none }

/-- C9: on OwedLines respecting the data-model invariants (both owed
fields nonnegative, at most one nonzero), the ledger read's summary is
exactly the spec's aggregation: partition by the nonzero side, sum unpaid
amounts per side, net difference reported as absolute value, and the net
debtor given by the sign of the net. -/
theorem ledger_summary_matches_spec (lines : List OwedLine)
    (h : ∀ l ∈ lines, (0 ≤ l.owedPerson1 ∧ 0 ≤ l.owedPerson2) ∧
          (l.owedPerson1 = 0 ∨ l.owedPerson2 = 0)) :
    ledgerSummary lines = specLedgerSummary lines := by
  have h1 : (groupOwedLines lines).1.filter (fun l => !l.paidStatus) =
      lines.filter fun l => decide (l.owedPerson1 ≠ 0) && !l.paidStatus := by
    rw [groupOwedLines_fst, List.filter_filter]
    refine List.filter_congr fun l hl => ?_
    obtain ⟨⟨hnn1, _⟩, _⟩ := h l hl
    by_cases hp : l.owedPerson1 = 0
    · simp [hp]
    · have hlt : 0 < l.owedPerson1 := lt_of_le_of_ne hnn1 (Ne.symm hp)
      cases hps : l.paidStatus <;> simp [hp, hlt, hps]
  have h2 : (groupOwedLines lines).2.filter (fun l => !l.paidStatus) =
      lines.filter fun l => decide (l.owedPerson2 ≠ 0) && !l.paidStatus := by
    rw [groupOwedLines_snd, List.filter_filter]
    refine List.filter_congr fun l hl => ?_
    obtain ⟨⟨hnn1, hnn2⟩, hexcl⟩ := h l hl
    by_cases hp : l.owedPerson2 = 0
    · simp [hp]
    · have hlt : 0 < l.owedPerson2 := lt_of_le_of_ne hnn2 (Ne.symm hp)
      have hz1 : l.owedPerson1 = 0 := hexcl.resolve_right hp
      cases hps : l.paidStatus <;> simp [hp, hlt, hps, hz1]
  simp only [ledgerSummary, specLedgerSummary]
  rw [h1, h2]

/-- The two unpaid lines of the spec's net-summary scenario: $300 owed to
person1 and $120 owed to person2. -/
def demoSummaryLines : List OwedLine :=
  [{ sourceType := "expense", sourceId := "x", date := some 1,
     description := "a", category := none, totalAmount := 600,
     owedPerson1 := 300, owedPerson2 := 0, paidStatus := false,
     notes := none },
   { sourceType := "expense", sourceId := "y", date := some 2,
     description := "b", category := none, totalAmount := 240,
     owedPerson1 := 0, owedPerson2 := 120, paidStatus := false,
     notes := none }]

/-- Witness for C9, the spec's scenario: $300 unpaid owed to person1 and
$120 unpaid owed to person2 give net 180 with person2 as net debtor. -/
theorem ledger_summary_matches_spec_witness :
    ledgerSummary demoSummaryLines = specLedgerSummary demoSummaryLines ∧
    (ledgerSummary demoSummaryLines).netAmount = 180 ∧
    (ledgerSummary demoSummaryLines).netDebtor = some Person.person2 := by
  refine ⟨ledger_summary_matches_spec demoSummaryLines ?_, ?_, ?_⟩
  · intro l hl
    fin_cases hl <;> norm_num [demoSummaryLines]
  · norm_num [ledgerSummary, demoSummaryLines, groupOwedLines]
  · norm_num [ledgerSummary, demoSummaryLines, groupOwedLines]

/-- C10: an OwedLine with both owed sides zero is placed in neither
debt-direction view by the ledger read, and the summary over the stored
lines equals the summary over only the lines visible in some view — the
zero-zero line exists in storage but is invisible in both views and in the
summary. -/
theorem zero_owed_line_invisible (lines : List OwedLine) (l : OwedLine)
    (_hmem : l ∈ lines) (h1 : l.owedPerson1 = 0) (h2 : l.owedPerson2 = 0) :
    l ∉ (groupOwedLines lines).1 ∧ l ∉ (groupOwedLines lines).2 ∧
    ledgerSummary lines =
      ledgerSummary (lines.filter fun x =>
        decide (0 < x.owedPerson1) || decide (0 < x.owedPerson2)) := by
  refine ⟨?_, ?_, ?_⟩
  · rw [groupOwedLines_fst]
    intro hin
    have hx := (List.mem_filter.mp hin).2
    rw [h1] at hx
    simp at hx
  · rw [groupOwedLines_snd]
    intro hin
    have hx := (List.mem_filter.mp hin).2
    rw [h2] at hx
    simp at hx
  · have g1 : (groupOwedLines (lines.filter fun x =>
        decide (0 < x.owedPerson1) || decide (0 < x.owedPerson2))).1 =
        (groupOwedLines lines).1 := by
      rw [groupOwedLines_fst, groupOwedLines_fst, List.filter_filter]
      refine List.filter_congr fun x _ => ?_
      by_cases hp : 0 < x.owedPerson1 <;> simp [hp]
    have g2 : (groupOwedLines (lines.filter fun x =>
        decide (0 < x.owedPerson1) || decide (0 < x.owedPerson2))).2 =
        (groupOwedLines lines).2 := by
      rw [groupOwedLines_snd, groupOwedLines_snd, List.filter_filter]
      refine List.filter_congr fun x _ => ?_
      by_cases hp1 : 0 < x.owedPerson1 <;>
        by_cases hp2 : 0 < x.owedPerson2 <;> simp [hp1, hp2]
    simp only [ledgerSummary]
    rw [g1, g2]

/-- Witness for C10: the line the expense calculator produces for the
100/0 split paid by the full-share party has both owed sides zero, sits in
neither view, and dropping it leaves the summary unchanged. -/
theorem zero_owed_line_invisible_witness :
    expenseOwedLine [] none none fullShareExpense ∉
      (groupOwedLines [expenseOwedLine [] none none fullShareExpense]).1 ∧
    expenseOwedLine [] none none fullShareExpense ∉
      (groupOwedLines [expenseOwedLine [] none none fullShareExpense]).2 ∧
    ledgerSummary [expenseOwedLine [] none none fullShareExpense] =
      ledgerSummary
        ([expenseOwedLine [] none none fullShareExpense].filter fun x =>
          decide (0 < x.owedPerson1) || decide (0 < x.owedPerson2)) := by
  have hz : (expenseOwedLine [] none none fullShareExpense).owedPerson1 = 0 ∧
      (expenseOwedLine [] none none fullShareExpense).owedPerson2 = 0 := by
    constructor <;>
      norm_num [expenseOwedLine, calculateExpenseOwed, fullShareExpense,
        expenseSharePcts, bankersRound]
  exact zero_owed_line_invisible _ _ (List.mem_singleton.mpr rfl) hz.1 hz.2

/-- A $100 expense at the default 50/50 split, paid by person1. -/
def paidExpense : Expense :=
  { id := "e1", date := 5, description := "gro", category := "Groceries",
    totalAmount := 100, paidBy := Person.person1,
    manualPerson1SharePct := none, manualPerson2SharePct := none }

/-- The ledger line of `paidExpense`, after the user marked it paid. -/
def paidPriorLine : OwedLine :=
  { sourceType := "expense", sourceId := "e1", date := some 5,
    description := "gro (undefined paid)", category := some "Groceries",
    totalAmount := 100, owedPerson1 := 50, owedPerson2 := 0,
    paidStatus := true, notes := none }

/-- C4 (code behaviour at the failing input): recomputing the ledger with
no change to the underlying expense replaces the user's `paidStatus = true`
line by the field-for-field identical line with `paidStatus = false` — the
recompute does NOT preserve `paidStatus` as the claim requires. -/
theorem recalc_resets_paid_status :
    paidPriorLine.paidStatus = true ∧
    recalculateLedger [paidExpense] [] [] [] [paidPriorLine] =
      [{ paidPriorLine with paidStatus := false }] := by
  constructor
  · rfl
  · norm_num [recalculateLedger, deleteOwedLinesBySource, expenseOwedLine,
      calculateExpenseOwed, expenseSharePcts, findSplitPeriod, bankersRound,
      jsName, paidExpense, paidPriorLine]
    rfl

/-- A line survives the per-expense delete passes of a recompute iff no
listed expense claims it as `("expense", its id)`. -/
def untouchedByExpenses (expenses : List Expense) (l : OwedLine) : Bool :=
  expenses.all fun e => !(l.sourceType == "expense" && l.sourceId == e.id)

/-- A line survives the per-asset delete passes of a recompute iff no
listed asset claims it as `("asset", its id)`. -/
def untouchedByAssets (assets : List Asset) (l : OwedLine) : Bool :=
  assets.all fun a => !(l.sourceType == "asset" && l.sourceId == a.id)

/-- Every line inserted for an asset carries source `("asset", asset.id)`. -/
theorem assetOwedLines_source (periods : List SplitPeriod)
    (p1 p2 : Option SettlementParticipant) (asset : Asset) (l : OwedLine)
    (hl : l ∈ assetOwedLines periods p1 p2 asset) :
    l.sourceType = "asset" ∧ l.sourceId = asset.id := by
  rcases h : calculateAssetBuyback asset periods with _ | bi <;>
    simp [assetOwedLines, h] at hl
  subst hl
  exact ⟨rfl, rfl⟩

/-- Normal form of the expense pass of `recalculateLedger`: with pairwise
distinct expense ids, folding delete-then-insert over the expense list
keeps exactly the untouched prior lines followed by one fresh line per
expense in list order. -/
theorem recalcExpenses_normal (periods : List SplitPeriod)
    (p1 p2 : Option SettlementParticipant) (expenses : List Expense)
    (hdist : expenses.Pairwise fun a b => a.id ≠ b.id) :
    ∀ L : List OwedLine,
      expenses.foldl (fun lines expense =>
          deleteOwedLinesBySource "expense" expense.id lines ++
            [expenseOwedLine periods p1 p2 expense]) L =
        L.filter (untouchedByExpenses expenses) ++
          expenses.map (expenseOwedLine periods p1 p2) := by
  induction expenses with
  | nil =>
    intro L
    simp only [List.foldl_nil, List.map_nil, List.append_nil]
    exact (List.filter_eq_self.mpr fun a _ => rfl).symm
  | cons e rest ih =>
    intro L
    rw [List.foldl_cons, ih (List.Pairwise.of_cons hdist), List.filter_append]
    have hids : ∀ e' ∈ rest, e.id ≠ e'.id := (List.pairwise_cons.mp hdist).1
    have hline : List.filter (untouchedByExpenses rest)
        [expenseOwedLine periods p1 p2 e] =
        [expenseOwedLine periods p1 p2 e] := by
      refine List.filter_eq_self.mpr fun a ha => ?_
      rw [List.mem_singleton] at ha
      subst ha
      refine List.all_eq_true.mpr fun e' he' => ?_
      have : (expenseOwedLine periods p1 p2 e).sourceId = e.id := rfl
      simp [this, hids e' he']
    have hLfil : (deleteOwedLinesBySource "expense" e.id L).filter
        (untouchedByExpenses rest) =
        L.filter (untouchedByExpenses (e :: rest)) := by
      simp only [deleteOwedLinesBySource, List.filter_filter]
      refine List.filter_congr fun x _ => ?_
      simp only [untouchedByExpenses, List.all_cons]
      cases hb : (x.sourceType == "expense" && x.sourceId == e.id) <;>
        cases hr : rest.all
          (fun e' => !(x.sourceType == "expense" && x.sourceId == e'.id)) <;>
        simp [hb, hr]
    rw [hline, hLfil]
    simp

/-- Normal form of the asset pass of `recalculateLedger`: with pairwise
distinct asset ids, folding delete-then-insert over the asset list keeps
exactly the untouched prior lines followed by the computed buyback lines
in list order. -/
theorem recalcAssets_normal (periods : List SplitPeriod)
    (p1 p2 : Option SettlementParticipant) (assets : List Asset)
    (hdist : assets.Pairwise fun a b => a.id ≠ b.id) :
    ∀ L : List OwedLine,
      assets.foldl (fun lines asset =>
          deleteOwedLinesBySource "asset" asset.id lines ++
            assetOwedLines periods p1 p2 asset) L =
        L.filter (untouchedByAssets assets) ++
          assets.flatMap (assetOwedLines periods p1 p2) := by
  induction assets with
  | nil =>
    intro L
    simp only [List.foldl_nil, List.flatMap_nil, List.append_nil]
    exact (List.filter_eq_self.mpr fun a _ => rfl).symm
  | cons a rest ih =>
    intro L
    rw [List.foldl_cons, ih (List.Pairwise.of_cons hdist), List.filter_append]
    have hids : ∀ a' ∈ rest, a.id ≠ a'.id := (List.pairwise_cons.mp hdist).1
    have hline : List.filter (untouchedByAssets rest)
        (assetOwedLines periods p1 p2 a) =
        assetOwedLines periods p1 p2 a := by
      refine List.filter_eq_self.mpr fun x hx => ?_
      obtain ⟨_, hsid⟩ := assetOwedLines_source periods p1 p2 a x hx
      refine List.all_eq_true.mpr fun a' ha' => ?_
      simp [hsid, hids a' ha']
    have hLfil : (deleteOwedLinesBySource "asset" a.id L).filter
        (untouchedByAssets rest) =
        L.filter (untouchedByAssets (a :: rest)) := by
      simp only [deleteOwedLinesBySource, List.filter_filter]
      refine List.filter_congr fun x _ => ?_
      simp only [untouchedByAssets, List.all_cons]
      cases hb : (x.sourceType == "asset" && x.sourceId == a.id) <;>
        cases hr : rest.all
          (fun a' => !(x.sourceType == "asset" && x.sourceId == a'.id)) <;>
        simp [hb, hr]
    rw [hline, hLfil, List.flatMap_cons]
    simp

/-- Fresh expense lines are untouched by the asset delete passes (their
`sourceType` is `"expense"`, not `"asset"`). -/
theorem expenseLines_untouchedByAssets (periods : List SplitPeriod)
    (p1 p2 : Option SettlementParticipant) (expenses : List Expense)
    (assets : List Asset) :
    (expenses.map (expenseOwedLine periods p1 p2)).filter
        (untouchedByAssets assets) =
      expenses.map (expenseOwedLine periods p1 p2) := by
  refine List.filter_eq_self.mpr fun l hl => ?_
  obtain ⟨e, _, rfl⟩ := List.mem_map.mp hl
  refine List.all_eq_true.mpr fun a' _ => ?_
  have hst : (expenseOwedLine periods p1 p2 e).sourceType = "expense" := rfl
  simp [hst]

/-- Fresh asset lines are untouched by the expense delete passes. -/
theorem assetLines_untouchedByExpenses (periods : List SplitPeriod)
    (p1 p2 : Option SettlementParticipant) (expenses : List Expense)
    (assets : List Asset) :
    (assets.flatMap (assetOwedLines periods p1 p2)).filter
        (untouchedByExpenses expenses) =
      assets.flatMap (assetOwedLines periods p1 p2) := by
  refine List.filter_eq_self.mpr fun l hl => ?_
  obtain ⟨a, _, hla⟩ := List.mem_flatMap.mp hl
  obtain ⟨hst, _⟩ := assetOwedLines_source periods p1 p2 a l hla
  refine List.all_eq_true.mpr fun e' _ => ?_
  simp [hst]

/-- Fresh expense lines are all deleted again by the expense pass of a
second recompute over the same expenses. -/
theorem expenseLines_deleted (periods : List SplitPeriod)
    (p1 p2 : Option SettlementParticipant) (expenses : List Expense) :
    (expenses.map (expenseOwedLine periods p1 p2)).filter
        (untouchedByExpenses expenses) = [] := by
  refine List.filter_eq_nil_iff.mpr fun l hl => ?_
  obtain ⟨e, he, rfl⟩ := List.mem_map.mp hl
  intro hall
  have := List.all_eq_true.mp hall e he
  have hst : (expenseOwedLine periods p1 p2 e).sourceType = "expense" := rfl
  have hsid : (expenseOwedLine periods p1 p2 e).sourceId = e.id := rfl
  simp [hst, hsid] at this

/-- Fresh asset lines are all deleted again by the asset pass of a second
recompute over the same assets. -/
theorem assetLines_deleted (periods : List SplitPeriod)
    (p1 p2 : Option SettlementParticipant) (assets : List Asset) :
    (assets.flatMap (assetOwedLines periods p1 p2)).filter
        (untouchedByAssets assets) = [] := by
  refine List.filter_eq_nil_iff.mpr fun l hl => ?_
  obtain ⟨a, ha, hla⟩ := List.mem_flatMap.mp hl
  obtain ⟨hst, hsid⟩ := assetOwedLines_source periods p1 p2 a l hla
  intro hall
  have := List.all_eq_true.mp hall a ha
  simp [hst, hsid] at this

/-- C8: `recalculateLedger` is idempotent — for a fixed set of expenses
(with pairwise distinct ids), assets (likewise), split periods and
participants, running it twice in a row produces an OwedLine list
identical field for field to running it once (auto-generated ids and
timestamps are not part of the model). -/
theorem recalculateLedger_idempotent (expenses : List Expense)
    (assets : List Asset) (periods : List SplitPeriod)
    (participants : List SettlementParticipant) (lines0 : List OwedLine)
    (hE : expenses.Pairwise fun a b => a.id ≠ b.id)
    (hA : assets.Pairwise fun a b => a.id ≠ b.id) :
    recalculateLedger expenses assets periods participants
        (recalculateLedger expenses assets periods participants lines0) =
      recalculateLedger expenses assets periods participants lines0 := by
  have hEn := recalcExpenses_normal periods
    (participants.find? fun p => p.role == "creator")
    (participants.find? fun p => p.role == "participant") expenses hE
  have hAn := recalcAssets_normal periods
    (participants.find? fun p => p.role == "creator")
    (participants.find? fun p => p.role == "participant") assets hA
  have habsp : ((lines0.filter (untouchedByExpenses expenses)).filter
      (untouchedByAssets assets)).filter (untouchedByExpenses expenses) =
      (lines0.filter (untouchedByExpenses expenses)).filter
        (untouchedByAssets assets) := by
    simp only [List.filter_filter]
    refine List.filter_congr fun x _ => ?_
    cases hp : untouchedByExpenses expenses x <;>
      cases hq : untouchedByAssets assets x <;> simp [hp, hq]
  have habsq : ((lines0.filter (untouchedByExpenses expenses)).filter
      (untouchedByAssets assets)).filter (untouchedByAssets assets) =
      (lines0.filter (untouchedByExpenses expenses)).filter
        (untouchedByAssets assets) := by
    simp only [List.filter_filter]
    refine List.filter_congr fun x _ => ?_
    cases hp : untouchedByExpenses expenses x <;>
      cases hq : untouchedByAssets assets x <;> simp [hp, hq]
  simp only [recalculateLedger, hEn, hAn, List.filter_append,
    expenseLines_untouchedByAssets, assetLines_untouchedByExpenses,
    expenseLines_deleted, assetLines_deleted, habsp, habsq,
    List.append_nil, List.nil_append, List.append_assoc]

/-- Witness for C8: one expense and one valued asset, empty prior ledger;
running the recompute twice equals running it once. -/
theorem recalculateLedger_idempotent_witness :
    recalculateLedger [paidExpense]
        [Asset.mk "a8" "bike" 3 100 Person.person1 none none
          (some 80) (some 9) (some Person.person2)] [] []
        (recalculateLedger [paidExpense]
          [Asset.mk "a8" "bike" 3 100 Person.person1 none none
            (some 80) (some 9) (some Person.person2)] [] [] []) =
      recalculateLedger [paidExpense]
        [Asset.mk "a8" "bike" 3 100 Person.person1 none none
          (some 80) (some 9) (some Person.person2)] [] [] [] :=
  recalculateLedger_idempotent [paidExpense]
    [Asset.mk "a8" "bike" 3 100 Person.person1 none none
      (some 80) (some 9) (some Person.person2)] [] [] []
    (by simp) (by simp)

end SplitUp
